import Mathlib

/-!
Shallow embedding of `backend/scripts/generate_test_data.py`.

The script draws from Python's global `random` source via three primitives:
`random.choice` (uniform element of a list), `random.randint(a, b)`
(uniform integer in `[a, b]`), and `random.random()` (uniform real in
`[0, 1)`).  We model the random source as an explicit stream of draws: each
position of the stream carries both a natural number (consumed by
`choice`/`randint`, reduced into range by modulus) and a rational (consumed
by `random()`).  Every generator threads the stream position explicitly, so
generation is a pure function of the stream.

The float comparison `random.random() < 0.1` in the script is modelled with
the exact rational `1/10`: `random.random()` returns `k / 2^53` for an
integer `k`, and `k / 2^53` is below the IEEE-754 double nearest to `0.1`
(which is `3602879701896397 / 2^55`) exactly when `k < 2^53 / 10`, so the
rational threshold classifies every representable draw identically.
-/

/-- One position of the random stream: `n` is read by integer-valued
primitives (`random.choice`, `random.randint`), `q` by `random.random()`. -/
structure Draw where
  n : Nat
  q : ℚ
deriving Repr, DecidableEq

/-- The random source: an infinite stream of draws plus the current
position.  Each primitive consumes exactly one draw. -/
structure RandSrc where
  stream : Nat → Draw
  pos : Nat

/-- Consume one draw from the source. -/
def RandSrc.next (r : RandSrc) : Draw × RandSrc :=
  (r.stream r.pos, { r with pos := r.pos + 1 })

/-- Model of `random.choice(pool)`: returns an element of `pool` selected by
the next integer draw (reduced modulo the pool size).  The default value is
unreachable for the non-empty pools of the script. -/
def randChoice (pool : List String) (r : RandSrc) : String × RandSrc :=
  let (d, r') := r.next
  (pool.getD (d.n % pool.length) "", r')

/-- Model of `random.randint lo hi` (both endpoints inclusive, `lo ≤ hi`):
the next integer draw reduced into `[lo, hi]`. -/
def randintM (lo hi : Nat) (r : RandSrc) : Nat × RandSrc :=
  let (d, r') := r.next
  (lo + d.n % (hi + 1 - lo), r')

/-- Model of `random.random()`: the rational component of the next draw. -/
def randomUnit (r : RandSrc) : ℚ × RandSrc :=
  let (d, r') := r.next
  (d.q, r')

/-- `FIRST_NAMES` pool of the script. -/
def FIRST_NAMES : List String :=
  ["James", "Mary", "John", "Patricia", "Robert", "Jennifer", "Michael", "Linda",
   "William", "Barbara", "David", "Elizabeth", "Richard", "Susan", "Joseph", "Jessica",
   "Thomas", "Sarah", "Christopher", "Karen", "Daniel", "Nancy", "Matthew", "Lisa",
   "Anthony", "Betty", "Mark", "Margaret", "Donald", "Sandra", "Steven", "Ashley",
   "Paul", "Kimberly", "Andrew", "Emily", "Joshua", "Donna", "Kenneth", "Michelle",
   "Christina", "George", "Laura", "Kevin", "Carol", "Brian", "Amanda", "Edward"]

/-- `LAST_NAMES` pool of the script. -/
def LAST_NAMES : List String :=
  ["Smith", "Johnson", "Williams", "Brown", "Jones", "Garcia", "Miller", "Davis",
   "Rodriguez", "Martinez", "Hernandez", "Lopez", "Gonzalez", "Wilson", "Anderson",
   "Thomas", "Taylor", "Moore", "Jackson", "Martin", "Lee", "Perez", "Thompson",
   "White", "Harris", "Sanchez", "Clark", "Ramirez", "Lewis", "Robinson", "Walker",
   "Young", "Allen", "King", "Wright", "Scott", "Torres", "Nguyen", "Hill", "Flores",
   "Green", "Adams", "Nelson", "Baker", "Hall", "Rivera", "Campbell", "Mitchell",
   "Carter", "Roberts", "Vargas", "Harper", "Newman", "Blake", "Walters"]

/-- `COUNTRIES` pool of the script. -/
def COUNTRIES : List String :=
  ["US", "UK", "CA", "AU", "DE", "FR", "IT", "ES", "NL", "SE",
   "NO", "DK", "FI", "IE", "NZ", "CH", "AT", "BE", "PT", "GR",
   "PL", "CZ", "HU", "RO", "BG", "HR", "SI", "SK", "LT", "LV",
   "EE", "JP", "KR", "CN", "IN", "SG", "MY", "TH", "PH", "ID",
   "VN", "BR", "MX", "AR", "CL", "CO", "PE", "VE", "ZA", "EG"]

/-- `PROGRAMS` pool of the script. -/
def PROGRAMS : List String :=
  ["OFAC SDN", "EU Sanctions", "UN Sanctions", "DFAT Sanctions",
   "HMT Sanctions", "SECO Sanctions", "FINMA Watchlist", "PEP List"]

/-! ## Calendar arithmetic (model of `datetime`/`timedelta`)

`random_date` computes `datetime(1940, 1, 1)`, `datetime(2005, 12, 31)`,
their difference in days, draws `random.randint(0, delta.days)`, adds the
offset to the start date and formats it `"%Y-%m-%d"`.  We embed proleptic
Gregorian day arithmetic directly. -/

/-- Gregorian leap-year rule (as implemented by Python's `datetime`). -/
def isLeap (y : Nat) : Bool :=
  y % 4 = 0 && (y % 100 ≠ 0 || y % 400 = 0)

/-- Number of days in year `y`. -/
def daysInYear (y : Nat) : Nat := if isLeap y then 366 else 365

/-- Number of days of month `m` (1-based) in year `y`. -/
def daysInMonth (y m : Nat) : Nat :=
  if m = 2 then (if isLeap y then 29 else 28)
  else if m = 4 ∨ m = 6 ∨ m = 9 ∨ m = 11 then 30
  else 31

/-- Total days in the `n` consecutive years starting at year `y`. -/
def daysInYearsFrom (y : Nat) : Nat → Nat
  | 0 => 0
  | n + 1 => daysInYear y + daysInYearsFrom (y + 1) n

/-- Total days in months `1..k` of year `y`. -/
def monthsDays (y : Nat) : Nat → Nat
  | 0 => 0
  | k + 1 => monthsDays y k + daysInMonth y (k + 1)

/-- Day offset of the date `y-m-d` from `1940-01-01` (the value of
`(datetime(y, m, d) - datetime(1940, 1, 1)).days` for dates in range). -/
def dateToOffset (y m d : Nat) : Nat :=
  daysInYearsFrom 1940 (y - 1940) + monthsDays y (m - 1) + (d - 1)

/-- `delta.days` of the script: days from `1940-01-01` to `2005-12-31`. -/
def deltaDays : Nat := dateToOffset 2005 12 31

/-- Resolve a day offset (counted from January 1 of year `y`) to the year it
falls in together with the remaining 0-based day-of-year. -/
def yearAndDay (y off : Nat) : Nat × Nat :=
  if off < daysInYear y then (y, off)
  else yearAndDay (y + 1) (off - daysInYear y)
termination_by off
decreasing_by
  have hy : 0 < daysInYear y := by unfold daysInYear; split <;> omega
  omega

/-- Resolve a 0-based day-of-year `doy` (scanning from month `m`) to a
1-based `(month, day)` pair. -/
def monthAndDay (y m doy : Nat) : Nat × Nat :=
  if h : 12 ≤ m then (m, doy + 1)
  else if doy < daysInMonth y m then (m, doy + 1)
  else monthAndDay y (m + 1) (doy - daysInMonth y m)
termination_by 12 - m

/-- Total days in months `m..12` of year `y` (0 when `m > 12`). -/
def monthsFrom (y m : Nat) : Nat :=
  if 12 < m then 0 else daysInMonth y m + monthsFrom y (m + 1)
termination_by 13 - m

/-- Add `off` days to `1940-01-01`, returning `(year, month, day)`. -/
def offsetToDate (off : Nat) : Nat × Nat × Nat :=
  let (y, doy) := yearAndDay 1940 off
  let (m, d) := monthAndDay y 1 doy
  (y, m, d)

/-- The decimal digit character for `n < 10`. -/
def digitChar (n : Nat) : Char := Char.ofNat (48 + n)

/-- Two-digit zero-padded decimal rendering (for `%m` and `%d`, values
below 100). -/
def pad2 (n : Nat) : String :=
  String.mk [digitChar (n / 10 % 10), digitChar (n % 10)]

/-- Four-digit decimal rendering (for `%Y`, years `1000..9999`). -/
def pad4 (n : Nat) : String :=
  String.mk [digitChar (n / 1000 % 10), digitChar (n / 100 % 10),
             digitChar (n / 10 % 10), digitChar (n % 10)]

/-- `date.strftime("%Y-%m-%d")` for the in-range dates of the script. -/
def dateString (y m d : Nat) : String :=
  pad4 y ++ "-" ++ pad2 m ++ "-" ++ pad2 d

/-- A string is a valid generated date of birth when it is the ISO-8601
rendering `YYYY-MM-DD` of a calendar date whose year lies within the
configured bounds `1940..2005` inclusive and whose month and day are in
range for the Gregorian calendar. -/
def ValidDob (s : String) : Prop :=
  ∃ y m d, s = dateString y m d ∧ 1940 ≤ y ∧ y ≤ 2005 ∧
    1 ≤ m ∧ m ≤ 12 ∧ 1 ≤ d ∧ d ≤ daysInMonth y m

/-- Model of `random_date` (default bounds 1940/2005): draw a uniform
integer day offset in `[0, deltaDays]`, add it to `1940-01-01`, format as
ISO-8601. -/
def random_date (r : RandSrc) : String × RandSrc :=
  let kr := randintM 0 deltaDays r
  let ymd := offsetToDate kr.1
  (dateString ymd.1 ymd.2.1 ymd.2.2, kr.2)

/-! ## Record types and generators -/

/-- A customer record of `generate_customers` (Python dict with keys
`name`, `date_of_birth`, `country`). -/
structure Customer where
  name : String
  date_of_birth : String
  country : String
deriving Repr, DecidableEq

/-- A sanctions record of `generate_sanctions` (Python dict with keys
`name`, `date_of_birth`, `country`, `program`, `aliases`). -/
structure Sanction where
  name : String
  date_of_birth : String
  country : String
  program : String
  aliases : String
deriving Repr, DecidableEq

/-- The fixed first record appended by `generate_customers` when
`include_christina` is set. -/
def anchorCustomer : Customer :=
  { name := "Christina Vargas", date_of_birth := "1995-07-23", country := "AU" }

/-- The fixed first record appended by `generate_sanctions` when
`include_christina` is set. -/
def anchorSanction : Sanction :=
  { name := "Christina Vargas", date_of_birth := "1995-07-23", country := "AU",
    program := "OFAC SDN", aliases := "" }

/-- One iteration of the `generate_customers` loop body: sample a name from
the two name pools, a date of birth, and a country. -/
def synthCustomer (r : RandSrc) : Customer × RandSrc :=
  let (fn, r1) := randChoice FIRST_NAMES r
  let (ln, r2) := randChoice LAST_NAMES r1
  let (dob, r3) := random_date r2
  let (c, r4) := randChoice COUNTRIES r3
  ({ name := fn ++ " " ++ ln, date_of_birth := dob, country := c }, r4)

/-- One iteration of the `generate_sanctions` loop body: the customer
fields plus a program, and an alias name exactly when the `random.random()`
draw is below `0.1`. -/
def synthSanction (r : RandSrc) : Sanction × RandSrc :=
  let (fn, r1) := randChoice FIRST_NAMES r
  let (ln, r2) := randChoice LAST_NAMES r1
  let (dob, r3) := random_date r2
  let (c, r4) := randChoice COUNTRIES r3
  let (p, r5) := randChoice PROGRAMS r4
  let (q, r6) := randomUnit r5
  if q < 1 / 10 then
    let (afn, r7) := randChoice FIRST_NAMES r6
    let (aln, r8) := randChoice LAST_NAMES r7
    ({ name := fn ++ " " ++ ln, date_of_birth := dob, country := c,
       program := p, aliases := afn ++ " " ++ aln }, r8)
  else
    ({ name := fn ++ " " ++ ln, date_of_birth := dob, country := c,
       program := p, aliases := "" }, r6)

/-- The `for i in range(k)` loop of `generate_customers`, appending `k`
synthesized records in order. -/
def customersLoop : Nat → RandSrc → List Customer × RandSrc
  | 0, r => ([], r)
  | k + 1, r =>
    let (c, r1) := synthCustomer r
    let (cs, r2) := customersLoop k r1
    (c :: cs, r2)

/-- The `for i in range(k)` loop of `generate_sanctions`. -/
def sanctionsLoop : Nat → RandSrc → List Sanction × RandSrc
  | 0, r => ([], r)
  | k + 1, r =>
    let (s, r1) := synthSanction r
    let (ss, r2) := sanctionsLoop k r1
    (s :: ss, r2)

/-- Model of `generate_customers(count, include_christina)`.  `count` is a
Python `int`, hence `Int` here; `range(count - 1)` is empty whenever
`count - 1 ≤ 0`, which `Int.toNat` captures. -/
def generate_customers (count : Int) (include_christina : Bool) (r : RandSrc) :
    List Customer × RandSrc :=
  let base := if include_christina then [anchorCustomer] else []
  let k := (count - (if include_christina then 1 else 0)).toNat
  let (cs, r') := customersLoop k r
  (base ++ cs, r')

/-- Model of `generate_sanctions(count, include_christina)`. -/
def generate_sanctions (count : Int) (include_christina : Bool) (r : RandSrc) :
    List Sanction × RandSrc :=
  let base := if include_christina then [anchorSanction] else []
  let k := (count - (if include_christina then 1 else 0)).toNat
  let (ss, r') := sanctionsLoop k r
  (base ++ ss, r')

/-- A concrete all-zero random source, used to instantiate theorems at
specific inputs. -/
def zeroRand : RandSrc := { stream := fun _ => { n := 0, q := 0 }, pos := 0 }

/-! ## CSV serialization (model of `write_csv` / `csv.DictWriter`)

`write_csv` opens the target file, writes one header row with the field
names and one row per record with the values in field order, using the
default `csv` dialect: fields are separated by `,`, rows are terminated by
`\r\n`, and a field containing the delimiter, the quote character or a
line-terminator character is wrapped in double quotes with embedded quotes
doubled (`QUOTE_MINIMAL`).  We model the written file by its content (a
`String`); rows are lists of field values projected in the caller-supplied
field order.  `parse_csv` is the matching reader: a character-level state
machine with an in-quotes mode, as `csv.reader` implements for
writer-produced files. -/

/-- A field must be quoted when it contains the delimiter, the quote
character, or a line-terminator character (`QUOTE_MINIMAL`). -/
def needsQuote (s : List Char) : Bool :=
  s.any (fun c => c == '"' || c == ',' || c == '\r' || c == '\n')

/-- Double every quote character (the escaping used inside quoted
fields). -/
def dq : List Char → List Char
  | [] => []
  | c :: cs => if c = '"' then '"' :: '"' :: dq cs else c :: dq cs

/-- Serialize one field, quoting it when `needsQuote` holds. -/
def escapeField (s : List Char) : List Char :=
  if needsQuote s then '"' :: (dq s ++ ['"']) else s

/-- Join the serialized fields of one row with the `,` delimiter. -/
def joinComma : List (List Char) → List Char
  | [] => []
  | [f] => escapeField f
  | f :: f2 :: fs => escapeField f ++ ',' :: joinComma (f2 :: fs)

/-- One serialized row, terminated by `\r\n` (the default
`lineterminator`). -/
def rowChars (row : List (List Char)) : List Char :=
  joinComma row ++ ['\r', '\n']

/-- The serialized file content for a list of rows. -/
def csvChars : List (List (List Char)) → List Char
  | [] => []
  | row :: rows => rowChars row ++ csvChars rows

/-- Model of `write_csv(filename, data, fieldnames)`: the content written
to the file — a header row holding the field names followed by one row per
record, values in the caller-supplied field order.  (The records of one
shape are represented by their value lists in that field order; the
file-system side effect is out of scope, the file is modelled by its
content.) -/
def write_csv (data : List (List String)) (fieldnames : List String) :
    String :=
  String.mk (csvChars ((fieldnames :: data).map (fun row =>
    row.map String.data)))

mutual

/-- CSV reader state machine, outside quotes.  `cur` is the field being
read, `curRow` the fields of the row being read, `acc` the completed rows.
A quote opens quoted mode only at the start of a field; `,` ends a field;
`\r\n` ends a row; input may only end at a row boundary. -/
def runU (input cur : List Char) (curRow : List (List Char))
    (acc : List (List (List Char))) : Option (List (List (List Char))) :=
  match input with
  | [] => if cur = [] ∧ curRow = [] then some acc else none
  | c :: cs =>
    if c = '"' ∧ cur = [] then runQ cs [] curRow acc
    else if c = ',' then runU cs [] (curRow ++ [cur]) acc
    else if c = '\r' then
      match cs with
      | '\n' :: cs2 => runU cs2 [] [] (acc ++ [curRow ++ [cur]])
      | _ => none
    else runU cs (cur ++ [c]) curRow acc
termination_by input.length

/-- CSV reader state machine, inside a quoted field: a doubled quote is a
literal quote, a single closing quote must be followed by a delimiter or a
row terminator. -/
def runQ (input cur : List Char) (curRow : List (List Char))
    (acc : List (List (List Char))) : Option (List (List (List Char))) :=
  match input with
  | [] => none
  | c :: cs =>
    if c = '"' then
      match cs with
      | '"' :: cs2 => runQ cs2 (cur ++ ['"']) curRow acc
      | ',' :: cs2 => runU cs2 [] (curRow ++ [cur]) acc
      | '\r' :: '\n' :: cs2 => runU cs2 [] [] (acc ++ [curRow ++ [cur]])
      | _ => none
    else runQ cs (cur ++ [c]) curRow acc
termination_by input.length

end

/-- Model of re-parsing a written file with `csv.reader` semantics:
returns the rows (header first), or `none` on malformed input. -/
def parse_csv (s : String) : Option (List (List String)) :=
  (runU s.data [] [] []).map (fun rows =>
    rows.map (fun row => row.map String.mk))

/-! ## Basic lemmas about the generation loops -/

theorem customersLoop_length (k : Nat) (r : RandSrc) :
    (customersLoop k r).1.length = k := by
  induction k generalizing r with
  | zero => simp [customersLoop]
  | succ k ih =>
    rcases h : synthCustomer r with ⟨c, r1⟩
    simp [customersLoop, h, ih]

theorem sanctionsLoop_length (k : Nat) (r : RandSrc) :
    (sanctionsLoop k r).1.length = k := by
  induction k generalizing r with
  | zero => simp [sanctionsLoop]
  | succ k ih =>
    rcases h : synthSanction r with ⟨s, r1⟩
    simp [sanctionsLoop, h, ih]

/-- Claim C1: for every requested count `N ≥ 1` with the anchor flag set,
`generate_customers` and `generate_sanctions` each return a list of length
exactly `N` whose element 0 is the fixed anchor record (name
"Christina Vargas", date of birth "1995-07-23", country "AU"; the sanctions
variant additionally carrying program "OFAC SDN" and empty aliases), so the
anchor triple heads both outputs. -/
theorem generate_anchor_first_and_length (N : Nat) (h : 1 ≤ N)
    (r r' : RandSrc) :
    (generate_customers (N : Int) true r).1.length = N ∧
    (generate_customers (N : Int) true r).1.head? = some anchorCustomer ∧
    (generate_sanctions (N : Int) true r').1.length = N ∧
    (generate_sanctions (N : Int) true r').1.head? = some anchorSanction ∧
    anchorCustomer.name = "Christina Vargas" ∧
    anchorCustomer.date_of_birth = "1995-07-23" ∧
    anchorCustomer.country = "AU" ∧
    anchorSanction.name = anchorCustomer.name ∧
    anchorSanction.date_of_birth = anchorCustomer.date_of_birth ∧
    anchorSanction.country = anchorCustomer.country ∧
    anchorSanction.program = "OFAC SDN" ∧
    anchorSanction.aliases = "" := by
  have hk : ((N : Int) - 1).toNat = N - 1 := by omega
  refine ⟨?_, ?_, ?_, ?_, rfl, rfl, rfl, rfl, rfl, rfl, rfl, rfl⟩
  · simp [generate_customers, hk, customersLoop_length]
    omega
  · simp [generate_customers]
  · simp [generate_sanctions, hk, sanctionsLoop_length]
    omega
  · simp [generate_sanctions]

/-- Witness for C1 at `N = 1`. -/
theorem generate_anchor_first_and_length_witness :
    (generate_customers ((1 : Nat) : Int) true zeroRand).1.length = 1 ∧
    (generate_customers ((1 : Nat) : Int) true zeroRand).1.head? =
      some anchorCustomer ∧
    (generate_sanctions ((1 : Nat) : Int) true zeroRand).1.length = 1 ∧
    (generate_sanctions ((1 : Nat) : Int) true zeroRand).1.head? =
      some anchorSanction ∧
    anchorCustomer.name = "Christina Vargas" ∧
    anchorCustomer.date_of_birth = "1995-07-23" ∧
    anchorCustomer.country = "AU" ∧
    anchorSanction.name = anchorCustomer.name ∧
    anchorSanction.date_of_birth = anchorCustomer.date_of_birth ∧
    anchorSanction.country = anchorCustomer.country ∧
    anchorSanction.program = "OFAC SDN" ∧
    anchorSanction.aliases = "" :=
  generate_anchor_first_and_length 1 (by decide) zeroRand zeroRand

/-- Claim C2 counterexample: with requested count 0 and the anchor
requested, both generators return (no error is raised; the embedding is
total exactly because the script raises nothing on this path) the
one-element list holding the anchor — a non-empty collection, contradicting
the claim that generation either fails or yields an empty collection. -/
theorem generate_zero_count_counterexample :
    (generate_customers 0 true zeroRand).1 = [anchorCustomer] ∧
    (generate_customers 0 true zeroRand).1 ≠ [] ∧
    (generate_sanctions 0 true zeroRand).1 = [anchorSanction] ∧
    (generate_sanctions 0 true zeroRand).1 ≠ [] := by
  refine ⟨rfl, by decide, rfl, by decide⟩

/-- Claim C2 (amended): when the requested count is 0 and the anchor is
requested, generation does not fail and returns, on every call (for every
random source), the one-element collection containing exactly the anchor
record — consistently non-empty, never empty. -/
theorem generate_zero_count_anchor_only (r r' : RandSrc) :
    (generate_customers 0 true r).1 = [anchorCustomer] ∧
    (generate_sanctions 0 true r').1 = [anchorSanction] := by
  constructor
  · simp [generate_customers, customersLoop]
  · simp [generate_sanctions, sanctionsLoop]

/-- Claim C3 counterexample: at requested count `-1` with the anchor flag
set, both generators return normally and produce the anchor record (and
with the flag unset they return normally with the empty list) — no error is
raised and a record is produced, contradicting the claim. -/
theorem generate_negative_count_counterexample :
    (generate_customers (-1) true zeroRand).1 = [anchorCustomer] ∧
    (generate_sanctions (-1) true zeroRand).1 = [anchorSanction] ∧
    (generate_customers (-1) false zeroRand).1 = [] ∧
    (generate_sanctions (-1) false zeroRand).1 = [] := by
  refine ⟨rfl, rfl, rfl, rfl⟩

/-- Claim C3 (amended): for every negative requested count the generators
raise no error; the random-fill loop runs zero times, no random draw is
consumed (the source is returned unchanged), and the result is exactly the
anchor record when requested and the empty collection otherwise. -/
theorem generate_negative_count_clamps (count : Int) (flag : Bool)
    (h : count < 0) (r r' : RandSrc) :
    (generate_customers count flag r).1 =
      (if flag then [anchorCustomer] else []) ∧
    (generate_customers count flag r).2 = r ∧
    (generate_sanctions count flag r').1 =
      (if flag then [anchorSanction] else []) ∧
    (generate_sanctions count flag r').2 = r' := by
  have hk : (count - (if flag then (1 : Int) else 0)).toNat = 0 := by
    cases flag <;> simp <;> omega
  refine ⟨?_, ?_, ?_, ?_⟩ <;>
    simp [generate_customers, generate_sanctions, hk, customersLoop,
      sanctionsLoop]

/-- Witness for the amended C3 at count `-1` with the anchor flag set. -/
theorem generate_negative_count_clamps_witness :
    (generate_customers (-1) true zeroRand).1 =
      (if true then [anchorCustomer] else []) ∧
    (generate_customers (-1) true zeroRand).2 = zeroRand ∧
    (generate_sanctions (-1) true zeroRand).1 =
      (if true then [anchorSanction] else []) ∧
    (generate_sanctions (-1) true zeroRand).2 = zeroRand :=
  generate_negative_count_clamps (-1) true (by decide) zeroRand zeroRand

/-- Claim C6: whenever the anchor is included — for every requested count,
positive, zero or negative, and every random source — element 0 of the
built collection is still exactly the original anchor record: the random
filling of the later positions never overwrites it, and its value does not
depend on the random source at all. -/
theorem generate_anchor_never_overwritten (count : Int) (r r' : RandSrc) :
    (generate_customers count true r).1.head? = some anchorCustomer ∧
    (generate_sanctions count true r').1.head? = some anchorSanction := by
  constructor
  · simp [generate_customers]
  · simp [generate_sanctions]

/-- Claim C9: generation is deterministic given the random source — two
calls of `generate_customers` (and of `generate_sanctions`) with the same
count, the same anchor flag, the same stream position and pointwise
identical streams of random draws produce identical results. -/
theorem generate_deterministic (count : Int) (flag : Bool)
    (s₁ s₂ : Nat → Draw) (p : Nat) (h : ∀ i, s₁ i = s₂ i) :
    generate_customers count flag ⟨s₁, p⟩ =
      generate_customers count flag ⟨s₂, p⟩ ∧
    generate_sanctions count flag ⟨s₁, p⟩ =
      generate_sanctions count flag ⟨s₂, p⟩ := by
  have hs : s₁ = s₂ := funext h
  subst hs
  exact ⟨rfl, rfl⟩

/-- Witness for C9 at count 3 with two definitionally equal streams. -/
theorem generate_deterministic_witness :
    generate_customers 3 true ⟨zeroRand.stream, 0⟩ =
      generate_customers 3 true ⟨fun _ => { n := 0, q := 0 }, 0⟩ ∧
    generate_sanctions 3 true ⟨zeroRand.stream, 0⟩ =
      generate_sanctions 3 true ⟨fun _ => { n := 0, q := 0 }, 0⟩ :=
  generate_deterministic 3 true zeroRand.stream (fun _ => { n := 0, q := 0 })
    0 (fun _ => rfl)

/-- Claim C10: for every requested count at most 0 with the anchor flag
set, the generators raise no error and return a collection of length
exactly 1 holding only the anchor record — the random-fill loop runs zero
times, so the output is non-empty and (its length being 1 > count) not of
the requested length. -/
theorem generate_nonpositive_count_anchor_only (count : Int)
    (h : count ≤ 0) (r r' : RandSrc) :
    (generate_customers count true r).1 = [anchorCustomer] ∧
    (generate_customers count true r).1.length = 1 ∧
    ((generate_customers count true r).1.length : Int) ≠ count ∧
    (generate_sanctions count true r').1 = [anchorSanction] ∧
    (generate_sanctions count true r').1.length = 1 ∧
    ((generate_sanctions count true r').1.length : Int) ≠ count := by
  have hk : (count - 1).toNat = 0 := by omega
  have h1 : (generate_customers count true r).1 = [anchorCustomer] := by
    simp [generate_customers, hk, customersLoop]
  have h2 : (generate_sanctions count true r').1 = [anchorSanction] := by
    simp [generate_sanctions, hk, sanctionsLoop]
  refine ⟨h1, by simp [h1], by simp [h1]; omega, h2, by simp [h2],
    by simp [h2]; omega⟩

/-- Witness for C10 at count 0. -/
theorem generate_nonpositive_count_anchor_only_witness :
    (generate_customers 0 true zeroRand).1 = [anchorCustomer] ∧
    (generate_customers 0 true zeroRand).1.length = 1 ∧
    ((generate_customers 0 true zeroRand).1.length : Int) ≠ 0 ∧
    (generate_sanctions 0 true zeroRand).1 = [anchorSanction] ∧
    (generate_sanctions 0 true zeroRand).1.length = 1 ∧
    ((generate_sanctions 0 true zeroRand).1.length : Int) ≠ 0 :=
  generate_nonpositive_count_anchor_only 0 (by decide) zeroRand zeroRand

/-! ## Calendar lemmas for `random_date` -/

theorem daysInYear_positive (y : Nat) : 0 < daysInYear y := by
  unfold daysInYear; split <;> omega

theorem yearAndDay_spec (n : Nat) :
    ∀ y off, off < daysInYearsFrom y n →
      y ≤ (yearAndDay y off).1 ∧ (yearAndDay y off).1 < y + n ∧
      (yearAndDay y off).2 < daysInYear (yearAndDay y off).1 := by
  induction n with
  | zero =>
    intro y off h
    simp [daysInYearsFrom] at h
  | succ n ih =>
    intro y off h
    rw [yearAndDay]
    by_cases hlt : off < daysInYear y
    · rw [if_pos hlt]
      exact ⟨le_refl y, by omega, hlt⟩
    · rw [if_neg hlt]
      have h' : off - daysInYear y < daysInYearsFrom (y + 1) n := by
        simp [daysInYearsFrom] at h
        omega
      have := ih (y + 1) (off - daysInYear y) h'
      refine ⟨by omega, by omega, this.2.2⟩

theorem monthsFrom_thirteen (y : Nat) : monthsFrom y 13 = 0 := by
  rw [monthsFrom]; simp

theorem monthsFrom_one (y : Nat) : monthsFrom y 1 = daysInYear y := by
  cases hy : isLeap y <;>
    simp [monthsFrom, daysInMonth, daysInYear, hy]

theorem monthAndDay_spec (y : Nat) (k : Nat) :
    ∀ m doy, 1 ≤ m → m + k = 13 → doy < monthsFrom y m →
      1 ≤ (monthAndDay y m doy).1 ∧ (monthAndDay y m doy).1 ≤ 12 ∧
      1 ≤ (monthAndDay y m doy).2 ∧
      (monthAndDay y m doy).2 ≤ daysInMonth y (monthAndDay y m doy).1 := by
  induction k with
  | zero =>
    intro m doy h1 hk hd
    have hm : m = 13 := by omega
    subst hm
    rw [monthsFrom_thirteen] at hd
    omega
  | succ k ih =>
    intro m doy h1 hk hd
    rw [monthAndDay]
    by_cases h12 : 12 ≤ m
    · have hm : m = 12 := by omega
      subst hm
      simp only [dif_pos (by omega : 12 ≤ 12)]
      have hmf : monthsFrom y 12 = 31 := by
        rw [monthsFrom]
        simp [daysInMonth, monthsFrom_thirteen]
      have hdim : daysInMonth y 12 = 31 := by simp [daysInMonth]
      refine ⟨by omega, by omega, by omega, by omega⟩
    · simp only [dif_neg h12]
      by_cases hlt : doy < daysInMonth y m
      · simp [hlt]
        omega
      · simp [hlt]
        have hrec : doy - daysInMonth y m < monthsFrom y (m + 1) := by
          rw [monthsFrom, if_neg (by omega : ¬ 12 < m)] at hd
          omega
        exact ih (m + 1) (doy - daysInMonth y m) (by omega) (by omega) hrec

theorem deltaDays_value : deltaDays = 24106 := by decide

theorem daysInYearsFrom_1940 : daysInYearsFrom 1940 66 = 24107 := by decide

/-- Any day offset up to `deltaDays` added to `1940-01-01` yields a valid
calendar date within the configured year bounds. -/
theorem offsetToDate_valid (k : Nat) (hk : k ≤ deltaDays) :
    1940 ≤ (offsetToDate k).1 ∧ (offsetToDate k).1 ≤ 2005 ∧
    1 ≤ (offsetToDate k).2.1 ∧ (offsetToDate k).2.1 ≤ 12 ∧
    1 ≤ (offsetToDate k).2.2 ∧
    (offsetToDate k).2.2 ≤ daysInMonth (offsetToDate k).1 (offsetToDate k).2.1 := by
  have hk' : k < daysInYearsFrom 1940 66 := by
    rw [daysInYearsFrom_1940]
    rw [deltaDays_value] at hk
    omega
  have hy := yearAndDay_spec 66 1940 k hk'
  rcases hyd : yearAndDay 1940 k with ⟨y, doy⟩
  rw [hyd] at hy
  have hdoy : doy < monthsFrom y 1 := by
    rw [monthsFrom_one]
    exact hy.2.2
  have hm := monthAndDay_spec y 12 1 doy (by omega) (by omega) hdoy
  rcases hmd : monthAndDay y 1 doy with ⟨m, d⟩
  rw [hmd] at hm
  have hout : offsetToDate k = (y, m, d) := by
    simp [offsetToDate, hyd, hmd]
  rw [hout]
  exact ⟨hy.1, by omega, hm.1, hm.2.1, hm.2.2.1, hm.2.2.2⟩

theorem randintM_le (r : RandSrc) : (randintM 0 deltaDays r).1 ≤ deltaDays := by
  unfold randintM RandSrc.next
  simp only [Nat.sub_zero, Nat.zero_add]
  have h := Nat.mod_lt ((r.stream r.pos).n) (show 0 < deltaDays + 1 by omega)
  omega

/-- Every output of `random_date` is the ISO rendering of a valid calendar
date with year in `1940..2005`. -/
theorem random_date_valid (r : RandSrc) : ValidDob (random_date r).1 := by
  obtain ⟨h1, h2, h3, h4, h5, h6⟩ :=
    offsetToDate_valid (randintM 0 deltaDays r).1 (randintM_le r)
  exact ⟨_, _, _, rfl, h1, h2, h3, h4, h5, h6⟩

theorem anchor_dob_valid : ValidDob "1995-07-23" := by
  refine ⟨1995, 7, 23, by decide, by omega, by omega, by omega, by omega,
    by omega, by decide⟩

theorem synthCustomer_dob_valid (r : RandSrc) :
    ValidDob (synthCustomer r).1.date_of_birth := by
  rcases h1 : randChoice FIRST_NAMES r with ⟨fn, r1⟩
  rcases h2 : randChoice LAST_NAMES r1 with ⟨ln, r2⟩
  rcases h3 : random_date r2 with ⟨dob, r3⟩
  rcases h4 : randChoice COUNTRIES r3 with ⟨c, r4⟩
  have : (synthCustomer r).1.date_of_birth = dob := by
    simp [synthCustomer, h1, h2, h3, h4]
  rw [this]
  have := random_date_valid r2
  rwa [h3] at this

theorem synthSanction_dob_valid (r : RandSrc) :
    ValidDob (synthSanction r).1.date_of_birth := by
  rcases h1 : randChoice FIRST_NAMES r with ⟨fn, r1⟩
  rcases h2 : randChoice LAST_NAMES r1 with ⟨ln, r2⟩
  rcases h3 : random_date r2 with ⟨dob, r3⟩
  rcases h4 : randChoice COUNTRIES r3 with ⟨c, r4⟩
  rcases h5 : randChoice PROGRAMS r4 with ⟨p, r5⟩
  rcases h6 : randomUnit r5 with ⟨q, r6⟩
  have hv := random_date_valid r2
  rw [h3] at hv
  have hd : (synthSanction r).1.date_of_birth = dob := by
    simp only [synthSanction, h1, h2, h3, h4, h5, h6]
    split <;> rfl
  rwa [hd]

theorem customersLoop_mem (k : Nat) :
    ∀ r c, c ∈ (customersLoop k r).1 → ∃ r', c = (synthCustomer r').1 := by
  induction k with
  | zero =>
    intro r c h
    simp [customersLoop] at h
  | succ k ih =>
    intro r c h
    rcases hs : synthCustomer r with ⟨c0, r1⟩
    simp [customersLoop, hs] at h
    rcases h with h | h
    · exact ⟨r, by rw [hs, h]⟩
    · exact ih r1 c h

theorem sanctionsLoop_mem (k : Nat) :
    ∀ r s, s ∈ (sanctionsLoop k r).1 → ∃ r', s = (synthSanction r').1 := by
  induction k with
  | zero =>
    intro r s h
    simp [sanctionsLoop] at h
  | succ k ih =>
    intro r s h
    rcases hs : synthSanction r with ⟨s0, r1⟩
    simp [sanctionsLoop, hs] at h
    rcases h with h | h
    · exact ⟨r, by rw [hs, h]⟩
    · exact ih r1 s h

theorem generate_customers_mem (count : Int) (flag : Bool) (r : RandSrc)
    (c : Customer) (h : c ∈ (generate_customers count flag r).1) :
    c = anchorCustomer ∨ ∃ r', c = (synthCustomer r').1 := by
  unfold generate_customers at h
  simp at h
  rcases h with h | h
  · cases flag <;> simp at h
    exact Or.inl h
  · exact Or.inr (customersLoop_mem _ _ _ h)

theorem generate_sanctions_mem (count : Int) (flag : Bool) (r : RandSrc)
    (s : Sanction) (h : s ∈ (generate_sanctions count flag r).1) :
    s = anchorSanction ∨ ∃ r', s = (synthSanction r').1 := by
  unfold generate_sanctions at h
  simp at h
  rcases h with h | h
  · cases flag <;> simp at h
    exact Or.inl h
  · exact Or.inr (sanctionsLoop_mem _ _ _ h)

/-- Claim C4: `random_date` draws an integer day offset in `[0, span]`,
where `span = deltaDays` is the day count from `1940-01-01` to
`2005-12-31`, adds it to the earliest bound and formats the result as an
ISO-8601 `YYYY-MM-DD` string; consequently every date of birth appearing in
either generated collection is a parseable calendar date whose year lies
within the configured bounds `1940..2005` inclusive. -/
theorem random_date_iso_in_bounds :
    deltaDays = dateToOffset 2005 12 31 ∧
    (∀ r : RandSrc,
      (randintM 0 deltaDays r).1 ≤ deltaDays ∧
      (random_date r).1 =
        dateString (offsetToDate (randintM 0 deltaDays r).1).1
          (offsetToDate (randintM 0 deltaDays r).1).2.1
          (offsetToDate (randintM 0 deltaDays r).1).2.2 ∧
      ValidDob (random_date r).1) ∧
    (∀ (count : Int) (flag : Bool) (r : RandSrc),
      ∀ c ∈ (generate_customers count flag r).1, ValidDob c.date_of_birth) ∧
    (∀ (count : Int) (flag : Bool) (r : RandSrc),
      ∀ s ∈ (generate_sanctions count flag r).1, ValidDob s.date_of_birth) := by
  refine ⟨rfl, fun r => ⟨randintM_le r, rfl, random_date_valid r⟩, ?_, ?_⟩
  · intro count flag r c hc
    rcases generate_customers_mem count flag r c hc with h | ⟨r', h⟩
    · rw [h]
      exact anchor_dob_valid
    · rw [h]
      exact synthCustomer_dob_valid r'
  · intro count flag r s hs
    rcases generate_sanctions_mem count flag r s hs with h | ⟨r', h⟩
    · rw [h]
      exact anchor_dob_valid
    · rw [h]
      exact synthSanction_dob_valid r'

/-- Witness for C4 at the anchor row of a one-record generation. -/
theorem random_date_iso_in_bounds_witness :
    anchorCustomer ∈ (generate_customers 1 true zeroRand).1 ∧
    ValidDob anchorCustomer.date_of_birth :=
  ⟨by decide,
   random_date_iso_in_bounds.2.2.1 1 true zeroRand anchorCustomer (by decide)⟩

/-! ## Pool-membership lemmas -/

theorem randChoice_mem (pool : List String) (hp : pool ≠ []) (r : RandSrc) :
    (randChoice pool r).1 ∈ pool := by
  unfold randChoice RandSrc.next
  have hl : 0 < pool.length := List.length_pos.mpr hp
  have hlt : (r.stream r.pos).n % pool.length < pool.length :=
    Nat.mod_lt _ hl
  simp only []
  rw [List.getD_eq_getElem _ _ hlt]
  exact List.getElem_mem hlt

theorem synthCustomer_country_mem (r : RandSrc) :
    (synthCustomer r).1.country ∈ COUNTRIES := by
  rcases h1 : randChoice FIRST_NAMES r with ⟨fn, r1⟩
  rcases h2 : randChoice LAST_NAMES r1 with ⟨ln, r2⟩
  rcases h3 : random_date r2 with ⟨dob, r3⟩
  rcases h4 : randChoice COUNTRIES r3 with ⟨c, r4⟩
  have hc : (synthCustomer r).1.country = c := by
    simp [synthCustomer, h1, h2, h3, h4]
  rw [hc]
  have := randChoice_mem COUNTRIES (by decide) r3
  rwa [h4] at this

theorem synthSanction_country_program_mem (r : RandSrc) :
    (synthSanction r).1.country ∈ COUNTRIES ∧
    (synthSanction r).1.program ∈ PROGRAMS := by
  rcases h1 : randChoice FIRST_NAMES r with ⟨fn, r1⟩
  rcases h2 : randChoice LAST_NAMES r1 with ⟨ln, r2⟩
  rcases h3 : random_date r2 with ⟨dob, r3⟩
  rcases h4 : randChoice COUNTRIES r3 with ⟨c, r4⟩
  rcases h5 : randChoice PROGRAMS r4 with ⟨p, r5⟩
  rcases h6 : randomUnit r5 with ⟨q, r6⟩
  have hc : (synthSanction r).1.country = c := by
    simp only [synthSanction, h1, h2, h3, h4, h5, h6]
    split <;> rfl
  have hp : (synthSanction r).1.program = p := by
    simp only [synthSanction, h1, h2, h3, h4, h5, h6]
    split <;> rfl
  constructor
  · rw [hc]
    have := randChoice_mem COUNTRIES (by decide) r3
    rwa [h4] at this
  · rw [hp]
    have := randChoice_mem PROGRAMS (by decide) r4
    rwa [h5] at this

/-- Claim C7: in every generated row of either collection the country value
is a member of the fixed `COUNTRIES` set, and for sanctions rows the
program value is a member of the fixed `PROGRAMS` set — no generated row
carries a value outside those sets, for any count, anchor flag and random
source. -/
theorem generate_country_program_in_pools :
    (∀ (count : Int) (flag : Bool) (r : RandSrc),
      ∀ c ∈ (generate_customers count flag r).1, c.country ∈ COUNTRIES) ∧
    (∀ (count : Int) (flag : Bool) (r : RandSrc),
      ∀ s ∈ (generate_sanctions count flag r).1,
        s.country ∈ COUNTRIES ∧ s.program ∈ PROGRAMS) := by
  constructor
  · intro count flag r c hc
    rcases generate_customers_mem count flag r c hc with h | ⟨r', h⟩
    · rw [h]
      decide
    · rw [h]
      exact synthCustomer_country_mem r'
  · intro count flag r s hs
    rcases generate_sanctions_mem count flag r s hs with h | ⟨r', h⟩
    · rw [h]
      constructor <;> decide
    · rw [h]
      exact synthSanction_country_program_mem r'

/-- Witness for C7 at the anchor rows of one-record generations. -/
theorem generate_country_program_in_pools_witness :
    (anchorCustomer ∈ (generate_customers 1 true zeroRand).1 ∧
      anchorCustomer.country ∈ COUNTRIES) ∧
    (anchorSanction ∈ (generate_sanctions 1 true zeroRand).1 ∧
      anchorSanction.country ∈ COUNTRIES ∧
      anchorSanction.program ∈ PROGRAMS) :=
  ⟨⟨by decide,
    generate_country_program_in_pools.1 1 true zeroRand anchorCustomer
      (by decide)⟩,
   ⟨by decide,
    generate_country_program_in_pools.2 1 true zeroRand anchorSanction
      (by decide)⟩⟩

/-! ## Alias Bernoulli trial -/

/-- The aliases field of a synthesized sanctions record is computed from
the record's own `random.random()` draw (the sixth draw consumed by the
record): a synthesized `<given> <family>` alias exactly when that draw is
below `0.1`, the empty string otherwise. -/
theorem synthSanction_aliases_eq (r : RandSrc) :
    (synthSanction r).1.aliases =
      if (r.stream (r.pos + 5)).q < 1 / 10 then
        FIRST_NAMES.getD ((r.stream (r.pos + 6)).n % FIRST_NAMES.length) ""
          ++ " " ++
          LAST_NAMES.getD ((r.stream (r.pos + 7)).n % LAST_NAMES.length) ""
      else "" := by
  simp only [synthSanction, randChoice, random_date, randintM, randomUnit,
    RandSrc.next, Nat.add_assoc]
  norm_num
  split <;> rfl

/-- Claim C5: for every synthesized sanctions record, the aliases field is
decided by the record's own uniform draw in `[0, 1)`: the record carries
exactly one synthesized alternate full name — a `FIRST_NAMES` element, a
space, and a `LAST_NAMES` element, the same composition rule as `name` —
iff that draw is below the alias probability `0.1`; otherwise `aliases` is
exactly the empty string (a single string field, never a list and never
several names). -/
theorem synthSanction_alias_bernoulli (r : RandSrc) :
    ((r.stream (r.pos + 5)).q < 1 / 10 →
      ∃ fn ln, fn ∈ FIRST_NAMES ∧ ln ∈ LAST_NAMES ∧
        (synthSanction r).1.aliases = fn ++ " " ++ ln) ∧
    (¬ (r.stream (r.pos + 5)).q < 1 / 10 →
      (synthSanction r).1.aliases = "") ∧
    ((synthSanction r).1.aliases = "" ↔
      ¬ (r.stream (r.pos + 5)).q < 1 / 10) := by
  have heq := synthSanction_aliases_eq r
  have hfn : FIRST_NAMES.getD ((r.stream (r.pos + 6)).n % FIRST_NAMES.length)
      "" ∈ FIRST_NAMES := by
    have hl : 0 < FIRST_NAMES.length := by decide
    have hlt := Nat.mod_lt ((r.stream (r.pos + 6)).n) hl
    rw [List.getD_eq_getElem _ _ hlt]
    exact List.getElem_mem hlt
  have hln : LAST_NAMES.getD ((r.stream (r.pos + 7)).n % LAST_NAMES.length)
      "" ∈ LAST_NAMES := by
    have hl : 0 < LAST_NAMES.length := by decide
    have hlt := Nat.mod_lt ((r.stream (r.pos + 7)).n) hl
    rw [List.getD_eq_getElem _ _ hlt]
    exact List.getElem_mem hlt
  have hne : FIRST_NAMES.getD ((r.stream (r.pos + 6)).n % FIRST_NAMES.length)
        "" ++ " " ++
        LAST_NAMES.getD ((r.stream (r.pos + 7)).n % LAST_NAMES.length) ""
      ≠ "" := by
    intro hcon
    have : (FIRST_NAMES.getD ((r.stream (r.pos + 6)).n % FIRST_NAMES.length)
        "" ++ " " ++
        LAST_NAMES.getD ((r.stream (r.pos + 7)).n % LAST_NAMES.length)
        "").length = 0 := by rw [hcon]; rfl
    simp [String.length_append] at this
    exact absurd this.1.2 (by decide)
  refine ⟨?_, ?_, ?_⟩
  · intro hq
    rw [heq, if_pos hq]
    exact ⟨_, _, hfn, hln, rfl⟩
  · intro hq
    rw [heq, if_neg hq]
  · constructor
    · intro h hq
      rw [heq, if_pos hq] at h
      exact hne h
    · intro hq
      rw [heq, if_neg hq]

/-- Witness for C5 at the all-zero source (its `random.random()` draw is 0,
below the alias probability, so an alias is emitted). -/
theorem synthSanction_alias_bernoulli_witness :
    (zeroRand.stream (zeroRand.pos + 5)).q < 1 / 10 ∧
    ∃ fn ln, fn ∈ FIRST_NAMES ∧ ln ∈ LAST_NAMES ∧
      (synthSanction zeroRand).1.aliases = fn ++ " " ++ ln :=
  ⟨by norm_num [zeroRand],
   (synthSanction_alias_bernoulli zeroRand).1 (by norm_num [zeroRand])⟩

/-! ## CSV round-trip -/

theorem noSpecial_of_needsQuote_false (s : List Char)
    (h : needsQuote s = false) :
    ∀ c ∈ s, ¬c = '"' ∧ ¬c = ',' ∧ ¬c = '\r' ∧ ¬c = '\n' := by
  simp [needsQuote, and_assoc] at h
  exact h

theorem runU_skip (f : List Char)
    (h : ∀ c ∈ f, ¬c = '"' ∧ ¬c = ',' ∧ ¬c = '\r' ∧ ¬c = '\n') :
    ∀ rest cur curRow acc,
      runU (f ++ rest) cur curRow acc = runU rest (cur ++ f) curRow acc := by
  induction f with
  | nil => intro rest cur curRow acc; simp
  | cons c f ih =>
    intro rest cur curRow acc
    obtain ⟨h1, h2, h3, h4⟩ := h c (List.mem_cons_self c f)
    have hf := fun x hx => h x (List.mem_cons_of_mem c hx)
    rw [List.cons_append, runU.eq_def]
    dsimp only
    rw [if_neg (fun hcc => h1 hcc.1), if_neg h2, if_neg h3,
      ih hf rest (cur ++ [c])]
    simp

theorem runQ_dq_comma (f : List Char) :
    ∀ cs cur curRow acc,
      runQ (dq f ++ '"' :: ',' :: cs) cur curRow acc =
        runU cs [] (curRow ++ [cur ++ f]) acc := by
  induction f with
  | nil =>
    intro cs cur curRow acc
    simp [dq, runQ.eq_def]
  | cons c f ih =>
    intro cs cur curRow acc
    by_cases hc : c = '"'
    · subst hc
      rw [show dq ('"' :: f) = '"' :: '"' :: dq f from by simp [dq],
        List.cons_append, List.cons_append, runQ.eq_def]
      simp only [if_pos rfl]
      rw [ih]
      simp
    · rw [show dq (c :: f) = c :: dq f from by simp [dq, hc],
        List.cons_append, runQ.eq_def]
      dsimp only
      rw [if_neg hc, ih]
      simp

theorem runQ_dq_crlf (f : List Char) :
    ∀ cs cur curRow acc,
      runQ (dq f ++ '"' :: '\r' :: '\n' :: cs) cur curRow acc =
        runU cs [] [] (acc ++ [curRow ++ [cur ++ f]]) := by
  induction f with
  | nil =>
    intro cs cur curRow acc
    simp [dq, runQ.eq_def]
  | cons c f ih =>
    intro cs cur curRow acc
    by_cases hc : c = '"'
    · subst hc
      rw [show dq ('"' :: f) = '"' :: '"' :: dq f from by simp [dq],
        List.cons_append, List.cons_append, runQ.eq_def]
      simp only [if_pos rfl]
      rw [ih]
      simp
    · rw [show dq (c :: f) = c :: dq f from by simp [dq, hc],
        List.cons_append, runQ.eq_def]
      dsimp only
      rw [if_neg hc, ih]
      simp

theorem runU_row : ∀ (row : List (List Char)), row ≠ [] →
    ∀ cs curRow acc,
      runU (rowChars row ++ cs) [] curRow acc =
        runU cs [] [] (acc ++ [curRow ++ row]) := by
  intro row
  induction row with
  | nil => intro h; exact absurd rfl h
  | cons f fs ih =>
    intro _ cs curRow acc
    cases fs with
    | nil =>
      have hshape : rowChars [f] ++ cs =
          escapeField f ++ ('\r' :: '\n' :: cs) := by
        simp [rowChars, joinComma]
      rw [hshape]
      by_cases hq : needsQuote f
      · rw [show escapeField f = '"' :: (dq f ++ ['"']) from by
          simp [escapeField, hq]]
        rw [List.cons_append, runU.eq_def]
        dsimp only
        rw [if_pos ⟨rfl, rfl⟩]
        rw [show (dq f ++ ['"']) ++ ('\r' :: '\n' :: cs) =
          dq f ++ '"' :: '\r' :: '\n' :: cs from by simp]
        rw [runQ_dq_crlf]
        simp
      · have hq' : needsQuote f = false := by simpa using hq
        rw [show escapeField f = f from by simp [escapeField, hq']]
        rw [runU_skip f (noSpecial_of_needsQuote_false f hq')]
        rw [runU.eq_def]
        simp
    | cons f2 fs2 =>
      have hshape : rowChars (f :: f2 :: fs2) ++ cs =
          escapeField f ++ (',' :: (rowChars (f2 :: fs2) ++ cs)) := by
        simp [rowChars, joinComma]
      rw [hshape]
      by_cases hq : needsQuote f
      · rw [show escapeField f = '"' :: (dq f ++ ['"']) from by
          simp [escapeField, hq]]
        rw [List.cons_append, runU.eq_def]
        dsimp only
        rw [if_pos ⟨rfl, rfl⟩]
        rw [show (dq f ++ ['"']) ++ (',' :: (rowChars (f2 :: fs2) ++ cs)) =
          dq f ++ '"' :: ',' :: (rowChars (f2 :: fs2) ++ cs) from by simp]
        rw [runQ_dq_comma]
        rw [ih (List.cons_ne_nil f2 fs2)]
        simp
      · have hq' : needsQuote f = false := by simpa using hq
        rw [show escapeField f = f from by simp [escapeField, hq']]
        rw [runU_skip f (noSpecial_of_needsQuote_false f hq')]
        rw [runU.eq_def]
        dsimp only
        rw [if_neg (by simp), if_pos rfl, ih (List.cons_ne_nil f2 fs2)]
        simp

theorem runU_csv : ∀ (rows : List (List (List Char))),
    (∀ row ∈ rows, row ≠ []) →
    ∀ acc, runU (csvChars rows) [] [] acc = some (acc ++ rows) := by
  intro rows
  induction rows with
  | nil => intro _ acc; simp [csvChars, runU.eq_def]
  | cons row rows ih =>
    intro h acc
    rw [csvChars, runU_row row (h row (List.mem_cons_self row rows))
      (csvChars rows) [] acc]
    rw [ih (fun r hr => h r (List.mem_cons_of_mem row hr))]
    simp

theorem mk_data_eq (s : String) : String.mk s.data = s := rfl

/-- Claim C8: for every collection of records of one shape — rows whose
length equals that of the (non-empty) field-name list — writing the
collection with `write_csv` (header row, then one row per record in the
given field order) and re-parsing the file content with the same field
order yields exactly the header followed by records equal field-for-field
to the originals. -/
theorem write_csv_round_trip (data : List (List String))
    (fieldnames : List String) (hf : fieldnames ≠ [])
    (hd : ∀ row ∈ data, row.length = fieldnames.length) :
    parse_csv (write_csv data fieldnames) = some (fieldnames :: data) := by
  unfold parse_csv write_csv
  have hne : ∀ row ∈ (fieldnames :: data).map (fun r => r.map String.data),
      row ≠ [] := by
    intro row hrow
    simp only [List.mem_map] at hrow
    obtain ⟨r0, hr0, hmap⟩ := hrow
    have hr0ne : r0 ≠ [] := by
      rcases List.mem_cons.mp hr0 with rfl | hmem
      · exact hf
      · intro hnil
        have hlen := hd r0 hmem
        rw [hnil] at hlen
        exact hf (List.length_eq_zero.mp hlen.symm)
    rw [← hmap]
    simpa using hr0ne
  rw [show (String.mk (csvChars ((fieldnames :: data).map (fun row =>
    row.map String.data)))).data = csvChars ((fieldnames :: data).map
    (fun row => row.map String.data)) from rfl]
  rw [runU_csv _ hne []]
  simp [List.map_map, Function.comp_def, mk_data_eq]

/-- Witness for C8 on a record containing the delimiter and the quote
character (so the quoting path of the writer and the quoted mode of the
reader are both exercised). -/
theorem write_csv_round_trip_witness :
    (["name", "date_of_birth", "country"] : List String) ≠ [] ∧
    (∀ row ∈ [["Lee, \"Ann\"", "1970-01-01", "US"]], (row : List String).length
      = (["name", "date_of_birth", "country"] : List String).length) ∧
    parse_csv (write_csv [["Lee, \"Ann\"", "1970-01-01", "US"]]
        ["name", "date_of_birth", "country"]) =
      some [["name", "date_of_birth", "country"],
        ["Lee, \"Ann\"", "1970-01-01", "US"]] :=
  ⟨by decide, by decide,
   write_csv_round_trip [["Lee, \"Ann\"", "1970-01-01", "US"]]
     ["name", "date_of_birth", "country"] (by decide) (by decide)⟩
